import Mathlib

/-!
Verification of the Todo application's CRUD/authorization core.

The views (`src/main_app/views.py`) and forms (`src/main_app/forms.py`) are
embedded as pure functions over an explicit database state.  The data model
(`Task`, `Category`) is not present under `src/` (only `admin.py`, `forms.py`
and `views.py` are), so the record types are modelled from the spec's data
model section; all operations are translated from the view/form code itself.
-/

deriving instance DecidableEq for Except

namespace Todo

/-- Modelled from the spec: the `Category` model (`main_app/models.py` is not
among the sources; spec §3: id unique system-assigned, name string, owner
reference to User).  The owning-user field is called `user`, as in
`forms.py` (`Category.objects.filter(user=user)`) and `admin.py`. -/
structure Category where
  id : Nat
  name : String
  user : Nat
deriving DecidableEq, Repr

/-- Modelled from the spec: the `Task` model (`main_app/models.py` is not among
the sources; spec §3: title required, description optional text, due_date
optional date, priority ordinal, category optional reference, completed
boolean defaulting to false, owner reference to User).  Dates are opaque
values; the owning-user field is called `user` as in `views.py`
(`Task.objects.filter(user=...)`). -/
structure Task where
  id : Nat
  title : String
  description : String
  due_date : Option Nat
  priority : Nat
  category : Option Nat
  completed : Bool
  user : Nat
deriving DecidableEq, Repr

/-- The persistence layer's state: the stored tasks and categories. -/
structure DB where
  tasks : List Task
  categories : List Category
deriving DecidableEq, Repr

/-- Failure outcomes of the view operations: Django's `Http404`
(`get_object_or_404`), `PermissionDenied` (403, produced by
`UserPassesTestMixin` when `test_func` returns false), and form
`ValidationError`. -/
inductive ViewError where
  | notFound
  | forbidden
  | validationError
deriving DecidableEq, Repr

/-- `TaskListView.get_queryset` (views.py lines 53-69): start from
`Task.objects.filter(user=self.request.user)`, narrow by `category__id` when a
category parameter is present, then narrow by completion status when the
`status` parameter is the string `"completed"` or `"pending"`. -/
def get_queryset (db : DB) (actor : Nat) (category_id : Option Nat)
    (status : Option String) : List Task :=
  let queryset := db.tasks.filter (fun t => t.user == actor)
  let queryset2 :=
    match category_id with
    | some cid => queryset.filter (fun t => t.category == some cid)
    | none => queryset
  if status == some "completed" then
    queryset2.filter (fun t => t.completed == true)
  else if status == some "pending" then
    queryset2.filter (fun t => t.completed == false)
  else
    queryset2

/-- `TaskListView.get_context_data` (views.py line 74): the categories shown
for filter-UI population are `Category.objects.filter(user=self.request.user)`. -/
def get_context_categories (db : DB) (actor : Nat) : List Category :=
  db.categories.filter (fun c => c.user == actor)

/-- The ownership test shared by `TaskDetailView.test_func`,
`TaskUpdateView.test_func` and `TaskDeleteView.test_func` (views.py lines
83-86, 121-124, 139-142): `task.user == self.request.user`. -/
def test_func (task : Task) (actor : Nat) : Bool :=
  task.user == actor

/-- `TaskDetailView` (views.py lines 78-86): `get_object` fetches the task by
primary key (404 when absent), then `UserPassesTestMixin` runs `test_func`;
a false result is surfaced as Forbidden. -/
def task_detail (db : DB) (actor : Nat) (pk : Nat) : Except ViewError Task :=
  match db.tasks.find? (fun t => t.id == pk) with
  | none => Except.error ViewError.notFound
  | some task =>
    if test_func task actor then Except.ok task
    else Except.error ViewError.forbidden

/-- The form fields declared client-settable by `TaskForm.Meta`
(forms.py line 19). -/
def taskForm_fields : List String :=
  ["title", "description", "due_date", "priority", "category"]

/-- The data bound by `TaskForm`: exactly the `Meta.fields` of forms.py. -/
structure TaskFormData where
  title : String
  description : String
  due_date : Option Nat
  priority : Nat
  category : Option Nat
deriving DecidableEq, Repr

/-- `TaskForm.__init__` (forms.py lines 25-30) restricts the category field's
queryset to `Category.objects.filter(user=user)`; Django's `ModelChoiceField`
then accepts a submitted id only when it denotes a member of that queryset.
Modelled from the spec for the framework validation step (the spec's
"category must be one of the actor's own categories (the set of selectable
categories is restricted to owner == actor at validation time)" and "Fails
with ValidationError when ... category references a category not owned by the
actor"); the queryset itself is translated from forms.py. -/
def taskForm_clean_category (categories : List Category) (user : Nat)
    (submitted : Option Nat) : Except ViewError (Option Nat) :=
  match submitted with
  | none => Except.ok none
  | some cid =>
    if (categories.filter (fun c => c.user == user)).any (fun c => c.id == cid) then
      Except.ok (some cid)
    else
      Except.error ViewError.validationError

/-- `TaskCreateView` (views.py lines 89-106): the form (restricted to the
actor's categories via `get_form_kwargs`) validates the submitted fields, then
`form_valid` stamps `form.instance.user = self.request.user` and saves; the
new row gets a fresh id and the model's `completed` default (false, spec §3). -/
def task_create (db : DB) (actor : Nat) (data : TaskFormData) (newId : Nat) :
    Except ViewError DB :=
  match taskForm_clean_category db.categories actor data.category with
  | Except.error e => Except.error e
  | Except.ok cat =>
    let newTask : Task :=
      { id := newId
        title := data.title
        description := data.description
        due_date := data.due_date
        priority := data.priority
        category := cat
        completed := false
        user := actor }
    Except.ok { db with tasks := db.tasks ++ [newTask] }

/-- `TaskUpdateView` (views.py lines 109-130): fetch by pk (404 when absent),
`test_func` guards ownership (403 on failure), then the form (restricted to
the actor's categories) validates and saves the `Meta.fields`; `user` and
`completed` are not form fields and keep their stored values. -/
def task_update (db : DB) (actor : Nat) (pk : Nat) (data : TaskFormData) :
    Except ViewError DB :=
  match db.tasks.find? (fun t => t.id == pk) with
  | none => Except.error ViewError.notFound
  | some task =>
    if test_func task actor then
      match taskForm_clean_category db.categories actor data.category with
      | Except.error e => Except.error e
      | Except.ok cat =>
        let task2 : Task :=
          { task with
            title := data.title
            description := data.description
            due_date := data.due_date
            priority := data.priority
            category := cat }
        Except.ok { db with tasks := db.tasks.map (fun t => if t.id == pk then task2 else t) }
    else Except.error ViewError.forbidden

/-- `TaskDeleteView` (views.py lines 133-147): fetch by pk (404 when absent),
`test_func` guards ownership (403 on failure), then the row is removed. -/
def task_delete (db : DB) (actor : Nat) (pk : Nat) : Except ViewError DB :=
  match db.tasks.find? (fun t => t.id == pk) with
  | none => Except.error ViewError.notFound
  | some task =>
    if test_func task actor then
      Except.ok { db with tasks := db.tasks.filter (fun t => !(t.id == pk)) }
    else Except.error ViewError.forbidden

/-- `toggle_task_completion` (views.py lines 150-156):
`get_object_or_404(Task, pk=pk, user=request.user)` is a single lookup whose
predicate combines the id and the owner; on success the `completed` flag is
negated and the row saved. -/
def toggle_task_completion (db : DB) (actor : Nat) (pk : Nat) :
    Except ViewError DB :=
  match db.tasks.find? (fun t => t.id == pk && t.user == actor) with
  | none => Except.error ViewError.notFound
  | some task =>
    let task2 : Task := { task with completed := !task.completed }
    Except.ok { db with tasks := db.tasks.map (fun t => if t.id == pk then task2 else t) }

/-- `profile` (views.py lines 31-44): `total` counts the actor's tasks,
`completed` counts those with `completed=True`, and `pending` is computed as
`total - completed`.  Returns `(total, completed, pending)`. -/
def profile (db : DB) (actor : Nat) : Nat × Nat × Nat :=
  let tasks := db.tasks.filter (fun t => t.user == actor)
  let total_tasks := tasks.length
  let completed_tasks := (tasks.filter (fun t => t.completed == true)).length
  let pending_tasks := total_tasks - completed_tasks
  (total_tasks, completed_tasks, pending_tasks)

/-! ### Concrete records used by the witnesses -/

def cat1 : Category := { id := 10, name := "Work", user := 1 }

def cat2 : Category := { id := 20, name := "Home", user := 2 }

def t1 : Task :=
  { id := 1
    title := "Write report"
    description := ""
    due_date := none
    priority := 2
    category := some 10
    completed := false
    user := 1 }

def t2 : Task :=
  { id := 2
    title := "Other"
    description := ""
    due_date := none
    priority := 1
    category := none
    completed := true
    user := 2 }

def db0 : DB := { tasks := [t1, t2], categories := [cat1, cat2] }

/-! ### Helper lemmas -/

/-- `find?` returns the unique element determined by a nodup id column. -/
theorem find_eq_some_of_unique (l : List Task) (t : Task) (p : Task → Bool)
    (hnd : (l.map Task.id).Nodup) (hmem : t ∈ l) (hpt : p t = true)
    (hid : ∀ u, p u = true → u.id = t.id) :
    l.find? p = some t := by
  induction l with
  | nil => cases hmem
  | cons a l ih =>
    rw [List.map_cons, List.nodup_cons] at hnd
    cases hmem with
    | head =>
      simp [List.find?_cons, hpt]
    | tail _ hmem' =>
      have hpa : p a = false := by
        by_contra h
        have hpa' : p a = true := by
          cases h' : p a with
          | true => rfl
          | false => exact absurd h' h
        have : a.id = t.id := hid a hpa'
        exact hnd.1 (this ▸ List.mem_map_of_mem Task.id hmem')
      rw [List.find?_cons, hpa]
      exact ih hnd.2 hmem'

/-- Two stored tasks with the same id are the same task when ids are nodup. -/
theorem eq_of_id_eq {l : List Task} (hnd : (l.map Task.id).Nodup)
    {u v : Task} (hu : u ∈ l) (hv : v ∈ l) (h : u.id = v.id) : u = v := by
  induction l with
  | nil => cases hu
  | cons a l ih =>
    rw [List.map_cons, List.nodup_cons] at hnd
    cases hu with
    | head =>
      cases hv with
      | head => rfl
      | tail _ hv' => exact absurd (h ▸ List.mem_map_of_mem Task.id hv') hnd.1
    | tail _ hu' =>
      cases hv with
      | head => exact absurd (h ▸ List.mem_map_of_mem Task.id hu') hnd.1
      | tail _ hv' => exact ih hnd.2 hu' hv'

/-- Mapping a function that fixes every member fixes the list. -/
theorem map_id_of_mem {α : Type} {l : List α} {f : α → α}
    (h : ∀ a ∈ l, f a = a) : l.map f = l :=
  (List.map_congr_left h).trans (List.map_id l)

/-- The task list with no optional filter is exactly the owner filter. -/
theorem get_queryset_none_none (db : DB) (actor : Nat) :
    get_queryset db actor none none = db.tasks.filter (fun t => t.user == actor) := by
  simp [get_queryset]

/-- C1: for every user `actor` and every task `t`, the task-list operation with
no category or status filter returns `t` iff `t` is stored and `t.user = actor`;
moreover with arbitrary category/status filters every returned task satisfies
`t.user = actor`, so no task owned by another user ever appears. -/
theorem ownership_isolation (db : DB) (actor : Nat) (t : Task) :
    (t ∈ get_queryset db actor none none ↔ t ∈ db.tasks ∧ t.user = actor) ∧
    (∀ category_id status, t ∈ get_queryset db actor category_id status →
      t.user = actor) := by
  constructor
  · rw [get_queryset_none_none]
    simp [List.mem_filter]
  · intro category_id status h
    unfold get_queryset at h
    rcases category_id with _ | cid <;> split at h <;> try split at h
    all_goals try simp [List.mem_filter] at h
    all_goals try split at h
    all_goals try simp [List.mem_filter] at h
    all_goals tauto

/-- A closed instance of `ownership_isolation`, evaluated on `db0`. -/
theorem ownership_isolation_witness :
    t1 ∈ db0.tasks ∧ t1.user = 1 :=
  (ownership_isolation db0 1 t1).1.mp (by decide)

/-- C4: the status filter's semantics: `"completed"` keeps exactly the
completed tasks, `"pending"` exactly the not-completed ones, and any other
string (like an absent parameter) performs no narrowing. -/
theorem status_filter_semantics (db : DB) (actor : Nat) (category_id : Option Nat) :
    (∀ t ∈ get_queryset db actor category_id (some "completed"), t.completed = true) ∧
    (∀ t ∈ get_queryset db actor category_id (some "pending"), t.completed = false) ∧
    (∀ s : String, s ≠ "completed" → s ≠ "pending" →
      get_queryset db actor category_id (some s) =
        get_queryset db actor category_id none) := by
  refine ⟨?_, ?_, ?_⟩
  · intro t ht
    unfold get_queryset at ht
    simp [List.mem_filter] at ht
    tauto
  · intro t ht
    unfold get_queryset at ht
    simp [List.mem_filter] at ht
    tauto
  · intro s hs1 hs2
    unfold get_queryset
    simp [hs1, hs2]

/-- A closed instance of `status_filter_semantics`: the unrecognized status
string `"bogus"` performs no narrowing on `db0`. -/
theorem status_filter_semantics_witness :
    get_queryset db0 2 none (some "bogus") = get_queryset db0 2 none none :=
  (status_filter_semantics db0 2 none).2.2 "bogus" (by decide) (by decide)

/-- C5: for a fixed user and fixed category filter, the `"completed"` and
`"pending"` result sets partition the unfiltered result set: their union is
the unfiltered list and they are disjoint. -/
theorem status_filter_partition (db : DB) (actor : Nat) (category_id : Option Nat)
    (t : Task) :
    ((t ∈ get_queryset db actor category_id (some "completed") ∨
      t ∈ get_queryset db actor category_id (some "pending")) ↔
      t ∈ get_queryset db actor category_id none) ∧
    ¬(t ∈ get_queryset db actor category_id (some "completed") ∧
      t ∈ get_queryset db actor category_id (some "pending")) := by
  unfold get_queryset
  simp [List.mem_filter]
  cases h : t.completed <;> simp [h]

/-- A closed instance of `status_filter_partition`, evaluated on `db0`. -/
theorem status_filter_partition_witness :
    t2 ∈ get_queryset db0 2 none none :=
  (status_filter_partition db0 2 none t2).1.mp (Or.inl (by decide))

/-- C10: the profile view's counts satisfy `total = completed + pending` in
every state: `total` counts all of the actor's tasks, `completed` the actor's
completed tasks, and `pending` is computed as `total - completed`. -/
theorem profile_counts (db : DB) (actor : Nat) :
    (profile db actor).1 =
      (db.tasks.filter (fun t => t.user == actor)).length ∧
    (profile db actor).2.1 =
      ((db.tasks.filter (fun t => t.user == actor)).filter
        (fun t => t.completed == true)).length ∧
    (profile db actor).1 = (profile db actor).2.1 + (profile db actor).2.2 := by
  refine ⟨rfl, rfl, ?_⟩
  have h := List.length_filter_le (fun t => t.completed == true)
    (db.tasks.filter (fun t => t.user == actor))
  simp only [profile]
  omega

/-- Successful toggle, explicitly: when the acting user owns the stored task
`t` (ids nodup), the lookup finds `t` and the saved state replaces the row
with id `t.id` by `t` with its `completed` flag negated. -/
theorem toggle_ok (db : DB) (actor : Nat) (t : Task)
    (hmem : t ∈ db.tasks) (hown : t.user = actor)
    (hnd : (db.tasks.map Task.id).Nodup) :
    toggle_task_completion db actor t.id =
      Except.ok { db with tasks := (db.tasks.map
        (fun u => if u.id == t.id then { t with completed := !t.completed } else u)) } := by
  have hfind : db.tasks.find? (fun u => u.id == t.id && u.user == actor) = some t := by
    apply find_eq_some_of_unique db.tasks t _ hnd hmem
    · simp [hown]
    · intro u hu
      simp at hu
      exact hu.1
  simp [toggle_task_completion, hfind]

/-- C3: the toggle operation is governed by the single combined lookup
predicate `id = pk ∧ user = actor`: when no stored task satisfies it
(nonexistent id, or a task owned by another user) the operation returns
NotFound — and, returning an error, produces no new state — and when the
actor's own task matches, its `completed` flag is flipped and persisted. -/
theorem toggle_single_lookup (db : DB) (actor : Nat) (pk : Nat) :
    ((∀ t ∈ db.tasks, ¬(t.id = pk ∧ t.user = actor)) →
      toggle_task_completion db actor pk = Except.error ViewError.notFound) ∧
    (∀ t ∈ db.tasks, t.id = pk → t.user = actor →
      (db.tasks.map Task.id).Nodup →
      toggle_task_completion db actor pk =
        Except.ok { db with tasks := (db.tasks.map
          (fun u => if u.id == pk then { t with completed := !t.completed } else u)) }) := by
  constructor
  · intro hnone
    have hfind : db.tasks.find? (fun u => u.id == pk && u.user == actor) = none := by
      rw [List.find?_eq_none]
      intro u hu
      simp
      intro h1 h2
      exact hnone u hu ⟨h1, h2⟩
    simp [toggle_task_completion, hfind]
  · intro t hmem hpk hown hnd
    subst hpk
    exact toggle_ok db actor t hmem hown hnd

/-- A closed instance of `toggle_single_lookup`: toggling task 1 (owned by
user 1) as user 2 is NotFound even though the task exists. -/
theorem toggle_single_lookup_witness :
    toggle_task_completion db0 2 1 = Except.error ViewError.notFound :=
  (toggle_single_lookup db0 2 1).1 (by decide)

/-- C6: toggle-completion is an involution: toggling a task owned by the
acting user twice returns the state — in particular the task's `completed`
flag — to its original value. -/
theorem toggle_involution (db : DB) (actor : Nat) (t : Task)
    (hmem : t ∈ db.tasks) (hown : t.user = actor)
    (hnd : (db.tasks.map Task.id).Nodup) :
    (toggle_task_completion db actor t.id).bind
      (fun db2 => toggle_task_completion db2 actor t.id) = Except.ok db := by
  rw [toggle_ok db actor t hmem hown hnd]
  have hflip : ∀ u ∈ db.tasks,
      (Task.id ∘
        (fun u => if u.id == t.id then { t with completed := !t.completed } else u)) u
        = Task.id u := by
    intro u _
    by_cases hc : (u.id == t.id) = true
    · simp only [Function.comp, if_pos hc]
      exact (eq_of_beq hc).symm
    · simp only [Function.comp, if_neg hc]
  have hmem2 : ({ t with completed := !t.completed } : Task) ∈ db.tasks.map
      (fun u => if u.id == t.id then { t with completed := !t.completed } else u) := by
    have := List.mem_map_of_mem
      (fun u => if u.id == t.id then { t with completed := !t.completed } else u) hmem
    simpa using this
  have hnd2 : ((db.tasks.map
      (fun u => if u.id == t.id then { t with completed := !t.completed } else u)).map
        Task.id).Nodup := by
    rw [List.map_map, List.map_congr_left hflip]
    exact hnd
  have hstep2 := toggle_ok
    { db with tasks := (db.tasks.map
      (fun u => if u.id == t.id then { t with completed := !t.completed } else u)) }
    actor { t with completed := !t.completed } hmem2 hown hnd2
  simp only [Except.bind]
  rw [hstep2]
  simp only [List.map_map]
  have hfix : ∀ u ∈ db.tasks,
      ((fun v : Task => if v.id == t.id then
          { t with completed := !(!t.completed) } else v) ∘
        (fun u => if u.id == t.id then { t with completed := !t.completed } else u)) u
        = u := by
    intro u hu
    by_cases hc : (u.id == t.id) = true
    · have : u = t := eq_of_id_eq hnd hu hmem (eq_of_beq hc)
      subst this
      simp [Function.comp, Bool.not_not]
    · simp [Function.comp, hc]
  rw [map_id_of_mem hfix]

/-- A closed instance of `toggle_involution` on `db0`. -/
theorem toggle_involution_witness :
    (toggle_task_completion db0 1 t1.id).bind
      (fun db2 => toggle_task_completion db2 1 t1.id) = Except.ok db0 :=
  toggle_involution db0 1 t1 (by decide) (by decide) (by decide)

/-- C9: frame condition of a successful toggle: the categories table is
untouched, and the new task table maps each stored task to itself except the
target row, which changes only in its `completed` field (all other fields are
preserved by the record update). -/
theorem toggle_frame (db : DB) (actor : Nat) (t : Task)
    (hmem : t ∈ db.tasks) (hown : t.user = actor)
    (hnd : (db.tasks.map Task.id).Nodup) :
    ∃ db2, toggle_task_completion db actor t.id = Except.ok db2 ∧
      db2.categories = db.categories ∧
      db2.tasks = (db.tasks.map
        (fun u => if u.id == t.id then { u with completed := !u.completed } else u)) := by
  refine ⟨_, toggle_ok db actor t hmem hown hnd, rfl, ?_⟩
  apply List.map_congr_left
  intro u hu
  by_cases hc : (u.id == t.id) = true
  · have : u = t := eq_of_id_eq hnd hu hmem (eq_of_beq hc)
    subst this
    rfl
  · simp [hc]

/-- A closed instance of `toggle_frame` on `db0`. -/
theorem toggle_frame_witness :
    ∃ db2, toggle_task_completion db0 1 t1.id = Except.ok db2 ∧
      db2.categories = db0.categories ∧
      db2.tasks = (db0.tasks.map
        (fun u => if u.id == t1.id then { u with completed := !u.completed } else u)) :=
  toggle_frame db0 1 t1 (by decide) (by decide) (by decide)

/-- C2: for a stored task `t` (ids nodup), the detail view returns `t` iff the
actor owns it; the update and delete views can succeed iff the actor owns it;
and when the owner differs, each of the three fails with Forbidden (the
`test_func` rejection), returning no record and producing no new state. -/
theorem owner_only_access (db : DB) (actor : Nat) (t : Task)
    (hmem : t ∈ db.tasks) (hnd : (db.tasks.map Task.id).Nodup) :
    (task_detail db actor t.id = Except.ok t ↔ t.user = actor) ∧
    ((∃ data db2, task_update db actor t.id data = Except.ok db2) ↔
      t.user = actor) ∧
    ((∃ db2, task_delete db actor t.id = Except.ok db2) ↔ t.user = actor) ∧
    (t.user ≠ actor →
      task_detail db actor t.id = Except.error ViewError.forbidden ∧
      (∀ data, task_update db actor t.id data = Except.error ViewError.forbidden) ∧
      task_delete db actor t.id = Except.error ViewError.forbidden) := by
  have hfind : db.tasks.find? (fun u => u.id == t.id) = some t := by
    apply find_eq_some_of_unique db.tasks t _ hnd hmem
    · simp
    · intro u hu
      simpa using hu
  refine ⟨?_, ?_, ?_, ?_⟩
  · constructor
    · intro h
      by_contra hne
      simp [task_detail, hfind, test_func, hne] at h
    · intro h
      simp [task_detail, hfind, test_func, h]
  · constructor
    · rintro ⟨data, db2, h⟩
      by_contra hne
      simp [task_update, hfind, test_func, hne] at h
    · intro h
      refine ⟨⟨"", "", none, 0, none⟩,
        { db with tasks := (db.tasks.map (fun u =>
            if u.id == t.id then
              { t with
                title := ""
                description := ""
                due_date := none
                priority := 0
                category := none }
            else u)) }, ?_⟩
      simp [task_update, hfind, test_func, h, taskForm_clean_category]
  · constructor
    · rintro ⟨db2, h⟩
      by_contra hne
      simp [task_delete, hfind, test_func, hne] at h
    · intro h
      refine ⟨{ db with tasks := db.tasks.filter (fun u => !(u.id == t.id)) }, ?_⟩
      simp [task_delete, hfind, test_func, h]
  · intro hne
    refine ⟨?_, ?_, ?_⟩ <;>
      simp [task_detail, task_update, task_delete, hfind, test_func, hne]

/-- A closed instance of `owner_only_access`: user 2 is rejected with
Forbidden on user 1's task in `db0`. -/
theorem owner_only_access_witness :
    task_detail db0 2 t1.id = Except.error ViewError.forbidden ∧
    (∀ data, task_update db0 2 t1.id data = Except.error ViewError.forbidden) ∧
    task_delete db0 2 t1.id = Except.error ViewError.forbidden :=
  (owner_only_access db0 2 t1 (by decide) (by decide)).2.2.2 (by decide)

/-- C7: every successful create appends a task whose `user` is the acting
user — the stamping in `form_valid` — and `user` is not among the
client-settable `TaskForm.Meta.fields`, so no submitted owner value can
influence it. -/
theorem create_stamps_owner (db : DB) (actor : Nat) (data : TaskFormData)
    (newId : Nat) (db2 : DB)
    (h : task_create db actor data newId = Except.ok db2) :
    (∃ newTask : Task, db2.tasks = db.tasks ++ [newTask] ∧
      newTask.user = actor) ∧
    "user" ∉ taskForm_fields := by
  constructor
  · unfold task_create at h
    cases hc : taskForm_clean_category db.categories actor data.category with
    | error e =>
      rw [hc] at h
      simp at h
    | ok cat =>
      rw [hc] at h
      simp only [Except.ok.injEq] at h
      subst h
      exact ⟨_, rfl, rfl⟩
  · decide

def formData0 : TaskFormData :=
  { title := "Write report"
    description := ""
    due_date := none
    priority := 2
    category := some 10 }

def t5 : Task :=
  { id := 5
    title := "Write report"
    description := ""
    due_date := none
    priority := 2
    category := some 10
    completed := false
    user := 1 }

def db0c : DB := { tasks := [t1, t2, t5], categories := [cat1, cat2] }

/-- A closed instance of `create_stamps_owner`: user 1's create on `db0`
appends a task stamped with owner 1. -/
theorem create_stamps_owner_witness :
    (∃ newTask : Task, db0c.tasks = db0.tasks ++ [newTask] ∧
      newTask.user = 1) ∧
    "user" ∉ taskForm_fields :=
  create_stamps_owner db0 1 formData0 5 db0c (by decide)

/-- C8: the set of category ids the task form accepts for an actor is exactly
the ids of the actor's own categories: a foreign or unknown id fails with
ValidationError, in which case a create returns the error (no task appended)
and an update can never succeed (no task changed). -/
theorem taskform_category_restricted (cats : List Category) (actor : Nat)
    (cid : Nat) :
    (taskForm_clean_category cats actor (some cid) = Except.ok (some cid) ↔
      ∃ c ∈ cats, c.id = cid ∧ c.user = actor) ∧
    (¬(∃ c ∈ cats, c.id = cid ∧ c.user = actor) →
      taskForm_clean_category cats actor (some cid) =
        Except.error ViewError.validationError) ∧
    (∀ (db : DB) (data : TaskFormData) (newId : Nat),
      db.categories = cats → data.category = some cid →
      ¬(∃ c ∈ cats, c.id = cid ∧ c.user = actor) →
      task_create db actor data newId =
        Except.error ViewError.validationError) ∧
    (∀ (db : DB) (data : TaskFormData) (pk : Nat) (db2 : DB),
      db.categories = cats → data.category = some cid →
      ¬(∃ c ∈ cats, c.id = cid ∧ c.user = actor) →
      task_update db actor pk data ≠ Except.ok db2) := by
  have hcond : ∀ l : List Category,
      ((l.filter (fun c => c.user == actor)).any (fun c => c.id == cid) = true) ↔
      (∃ c ∈ l, c.id = cid ∧ c.user = actor) := by
    intro l
    simp [List.any_eq_true, List.mem_filter]
    tauto
  have key : ∀ l : List Category, ¬(∃ c ∈ l, c.id = cid ∧ c.user = actor) →
      taskForm_clean_category l actor (some cid) =
        Except.error ViewError.validationError := by
    intro l hno
    have hfalse : ((l.filter (fun c => c.user == actor)).any
        (fun c => c.id == cid)) = false := by
      by_contra hb
      exact hno ((hcond l).mp (by revert hb; cases ((l.filter
        (fun c => c.user == actor)).any (fun c => c.id == cid)) <;> simp))
    simp [taskForm_clean_category, hfalse]
  refine ⟨?_, key cats, ?_, ?_⟩
  · constructor
    · intro h
      by_contra hno
      rw [key cats hno] at h
      cases h
    · intro hyes
      have htrue := (hcond cats).mpr hyes
      simp [taskForm_clean_category, htrue]
  · intro db data newId hdb hdata hno
    subst hdb
    unfold task_create
    rw [hdata, key db.categories hno]
  · intro db data pk db2 hdb hdata hno h
    subst hdb
    unfold task_update at h
    cases hf : db.tasks.find? (fun u => u.id == pk) with
    | none =>
      rw [hf] at h
      cases h
    | some task =>
      rw [hf, hdata] at h
      by_cases ht : test_func task actor = true
      · simp [ht, key db.categories hno] at h
      · simp [ht] at h

/-- A closed instance of `taskform_category_restricted`: user 1 submitting
user 2's category (id 20) fails validation. -/
theorem taskform_category_restricted_witness :
    taskForm_clean_category [cat1, cat2] 1 (some 20) =
      Except.error ViewError.validationError :=
  (taskform_category_restricted [cat1, cat2] 1 20).2.1 (by decide)

end Todo
